import Mathlib

/-!
# Frame synchronisation in `app/scripts/lib/three.js`

A shallow embedding of the `MyThree` wrapper: the id-to-node registry
(`threeObjectsConnectedToPhysics`), the tracked physics objects, the
`prerender` listeners, `animate`, `useCardboard`, `getCameraPositionAbove`
and `pickObjects`.

Conventions of the embedding.

* JavaScript numbers are an abstract type `α` (class `JSNumber`): general
  statements name the arithmetic the code performs and assume nothing about
  rounding. Concrete frames take `α := ℚ`.
* Scene-graph objects live in a heap indexed by `NodeRef`; a reference is the
  identity of the JavaScript object.
* Plain objects used as dictionaries (`{}`) are lists of own properties. A read
  that misses the own properties falls through to `Object.prototype`, as the
  language prescribes. A write creates or replaces an own property for every
  key except `"__proto__"`, which replaces the prototype link instead. The
  registry takes its written keys from `Key`; the `collection` of `pickObjects`
  takes any name and records the prototype link (`Collection`).
* three.js, tween.js and the event emitter are not part of the repository.
  Their operations are fields of `Three`, or are modelled from the
  specification where marked.
* A call that may throw returns a `Completion`: the state reached together
  with the exception, if any.
* Listeners act on the `World`. Registering a listener from inside a dispatch
  is outside the model.
-/

namespace Verlet

/-! ## Numbers and three.js value types -/

/-- The operations on JavaScript numbers that the wrapper uses: `+`, unary `-`,
`/` and numeric literals. -/
class JSNumber (α : Type) extends Add α, Neg α, Div α, NatCast α, OfScientific α

/-- A `THREE.Vector3`. -/
structure Vector3 (α : Type) where
  x : α
  y : α
  z : α
deriving DecidableEq

/-- The method `Vector3.set(x, y, z)`: overwrites the three components. -/
def Vector3.set {α : Type} (_v : Vector3 α) (x y z : α) : Vector3 α :=
  { x := x, y := y, z := z }

/-- A `THREE.Quaternion`. -/
structure Quaternion (α : Type) where
  x : α
  y : α
  z : α
  w : α
deriving DecidableEq

/-- A `THREE.Euler`: three angles and the order in which they apply. -/
structure Euler (α : Type) where
  x : α
  y : α
  z : α
  order : String
deriving DecidableEq

/-- A `THREE.Matrix4`, by its elements. -/
structure Matrix4 (α : Type) where
  elements : List α
deriving DecidableEq

/-- The identity of a scene-graph object. -/
abbrev NodeRef := Nat

/-- The mutable pose of a `THREE.Object3D`. -/
structure Object3D (α : Type) where
  position : Vector3 α
  rotation : Euler α
deriving DecidableEq

/-- A physics-object snapshot as handed to `updateObjects`. Nothing validates
the elements, so `position` and `quaternion` may be missing. -/
structure PhysicsObject (α : Type) where
  id : String
  position : Option (Vector3 α)
  quaternion : Option (Quaternion α)
deriving DecidableEq

/-! ## Plain objects used as dictionaries -/

/-- A key that is written to the registry: any property name but
`"__proto__"`, for which an assignment replaces the prototype link instead of
creating an own property. -/
structure Key where
  name : String
  ordinary : name ≠ "__proto__"
deriving DecidableEq

/-- The property names every plain object inherits from `Object.prototype`.
Each of them reads as a truthy value (a function, or the prototype itself). -/
def objectPrototypeNames : List String :=
  ["__proto__", "constructor", "hasOwnProperty", "isPrototypeOf", "propertyIsEnumerable",
   "toLocaleString", "toString", "valueOf", "__defineGetter__", "__defineSetter__",
   "__lookupGetter__", "__lookupSetter__"]

/-- The own property `k` of a dictionary, if there is one. -/
def ownProperty {β : Type} : List (String × β) → String → Option β
  | [], _ => none
  | (k', v) :: rest, k => if k' = k then some v else ownProperty rest k

/-- The assignment `o[k] = v` for `k` other than `"__proto__"`: replaces the own
property `k`, or appends it. -/
def assign {β : Type} : List (String × β) → String → β → List (String × β)
  | [], k, v => [(k, v)]
  | (k', v') :: rest, k, v =>
    if k' = k then (k', v) :: rest else (k', v') :: assign rest k v

/-- What the expression `o[k]` evaluates to. -/
inductive Property (β : Type) where
  | undefined
  | inherited
  | own (value : β)
deriving DecidableEq

/-- The read `o[k]` on an object created by `{}`. -/
def getProperty {β : Type} (o : List (String × β)) (k : String) : Property β :=
  match ownProperty o k with
  | some v => .own v
  | none => if k ∈ objectPrototypeNames then .inherited else .undefined

/-! ## The state of a `MyThree` instance -/

/-- The value of `this.renderMethod`: the WebGL renderer, or the
`THREE.StereoEffect` wrapped around it. -/
inductive RenderMethod (α : Type) where
  | renderer
  | stereoEffect (eyeSeparation targetDistance : α)
deriving DecidableEq

/-- The perspective camera: its projection parameters and the `height` the
constructor attaches to it. Its pose is the heap entry at `ref`. -/
structure Camera (α : Type) where
  ref : NodeRef
  fov : α
  aspect : α
  near : α
  far : α
  height : α
  projectionMatrix : Matrix4 α
deriving DecidableEq

/-- The two properties of `window` that the wrapper reads. -/
structure Window (α : Type) where
  innerWidth : α
  innerHeight : α

/-- Everything a listener can reach: the scene-graph heap, the camera, the
render target and the two closure variables `physicsObjects` and
`threeObjectsConnectedToPhysics`. -/
structure World (α : Type) where
  nodes : NodeRef → Object3D α
  camera : Camera α
  renderMethod : RenderMethod α
  rendererSize : α × α
  physicsObjects : List (PhysicsObject α)
  threeObjectsConnectedToPhysics : List (String × NodeRef)

/-- A JavaScript exception: the `TypeError` the engine raises on a property
access of `undefined`, or a value raised by a collaborator. -/
inductive Exception (E : Type) where
  | typeError
  | raised (e : E)
deriving DecidableEq

/-- The outcome of a call: the state it leaves and the exception it threw, if
any. -/
structure Completion (σ E : Type) where
  state : σ
  thrown : Option (Exception E)

/-- One hit of a ray cast. -/
structure Intersection (α : Type) where
  distance : α
  point : Vector3 α
  object : NodeRef
deriving DecidableEq

/-- The external collaborators: three.js, tween.js and the callbacks that
client code registers (named by a handle of type `C`). -/
structure Three (α C E : Type) where
  setFromQuaternion : Euler α → Quaternion α → Euler α
  makePerspective : α → α → α → α → Matrix4 α
  cameraPose : Object3D α
  intersectObject : Vector3 α → Vector3 α → α → α → NodeRef → List (Intersection α)
  nearer : Intersection α → Intersection α → Bool
  tweenUpdate : World α → Completion (World α) E
  callback : C → World α → Completion (World α) E
  render : World α → Completion (World α) E

/-- A function registered with `this.on`. -/
inductive Listener (C : Type) where
  | updatePositions
  | tweenUpdate
  | callback (c : C)
deriving DecidableEq

/-- A `MyThree` instance: the reachable state and the emitter's registrations,
oldest first. -/
structure MyThree (α C : Type) where
  world : World α
  listeners : List (String × Listener C)

/-! ## The physics bookkeeping -/

/-- The method `Array.prototype.splice(start)`: removes everything from index
`start` on. -/
def splice {β : Type} (xs : List β) (start : Nat) : List β :=
  xs.take start

/-- The call `push.apply(xs, ys)`: appends the elements of `ys`. -/
def push {β : Type} (xs ys : List β) : List β :=
  xs ++ ys

/-- The method `updateObjects`. -/
def MyThree.updateObjects {α C : Type} (t : MyThree α C) (newObjects : List (PhysicsObject α)) :
    MyThree α C :=
  let physicsObjects := splice t.world.physicsObjects 0
  { t with world := { t.world with physicsObjects := push physicsObjects newObjects } }

/-- The method `connectPhysicsToThree`; `id` stands for `physicsMesh.id`. -/
def MyThree.connectPhysicsToThree {α C : Type} (t : MyThree α C) (mesh : NodeRef) (id : Key) :
    MyThree α C :=
  { t with world := { t.world with
      threeObjectsConnectedToPhysics := assign t.world.threeObjectsConnectedToPhysics id.name mesh } }

/-- The statement `node.position.set(x, y, z)` on the heap. -/
def World.setPosition {α : Type} (w : World α) (n : NodeRef) (x y z : α) : World α :=
  let moved : Object3D α := { w.nodes n with position := (w.nodes n).position.set x y z }
  { w with nodes := Function.update w.nodes n moved }

/-- The statement `node.rotation.setFromQuaternion(q)` on the heap. -/
def World.setRotation {α C E : Type} (three : Three α C E) (w : World α) (n : NodeRef)
    (q : Quaternion α) : World α :=
  let turned : Object3D α :=
    { w.nodes n with rotation := three.setFromQuaternion (w.nodes n).rotation q }
  { w with nodes := Function.update w.nodes n turned }

/-- The body of the loop in `updatePositions` for one physics object `i`. A
truthy registry entry that is no node has no `position`, and a mapped object
without `position` has no `x`: both accesses throw before anything is written. -/
def syncObject {α C E : Type} (three : Three α C E) (w : World α) (i : PhysicsObject α) :
    Completion (World α) E :=
  match getProperty w.threeObjectsConnectedToPhysics i.id with
  | .undefined => { state := w, thrown := none }
  | .inherited => { state := w, thrown := some .typeError }
  | .own node =>
    match i.position with
    | none => { state := w, thrown := some .typeError }
    | some p =>
      let w1 := w.setPosition node p.x p.y p.z
      match i.quaternion with
      | none => { state := w1, thrown := none }
      | some q => { state := World.setRotation three w1 node q, thrown := none }

/-- The loop `for (let i of physicsObjects)` of `updatePositions`. -/
def syncAll {α C E : Type} (three : Three α C E) :
    List (PhysicsObject α) → World α → Completion (World α) E
  | [], w => { state := w, thrown := none }
  | i :: rest, w =>
    match syncObject three w i with
    | { state := w1, thrown := none } => syncAll three rest w1
    | stopped => stopped

/-- The listener `updatePositions` that the constructor registers. -/
def updatePositions {α C E : Type} (three : Three α C E) (w : World α) : Completion (World α) E :=
  syncAll three w.physicsObjects w

/-! ## The event emitter and the frame -/

/-- Modelled from the spec: the emitter's `on` (package `fast-event-emitter`,
not in the repository) appends the callback to the ordered dispatch list. -/
def MyThree.on {α C : Type} (t : MyThree α C) (event : String) (listener : Listener C) :
    MyThree α C :=
  { t with listeners := t.listeners ++ [(event, listener)] }

/-- The listeners registered for `event`, oldest first. -/
def MyThree.listenersOf {α C : Type} (t : MyThree α C) (event : String) : List (Listener C) :=
  (t.listeners.filter (fun r => r.1 = event)).map Prod.snd

/-- Running one listener. -/
def Listener.run {α C E : Type} (three : Three α C E) :
    Listener C → World α → Completion (World α) E
  | .updatePositions, w => Verlet.updatePositions three w
  | .tweenUpdate, w => three.tweenUpdate w
  | .callback c, w => three.callback c w

/-- What happened during a call of `animate`, in order. -/
inductive Event (C : Type) where
  | invoked (listener : Listener C)
  | render
deriving DecidableEq

/-- The result of a dispatch or of a frame: the state, the calls made and the
exception that escaped, if any. -/
structure Frame (σ C E : Type) where
  state : σ
  trace : List (Event C)
  thrown : Option (Exception E)

/-- Modelled from the spec: the emitter's `emit` (package `fast-event-emitter`,
not in the repository) invokes every registered callback in registration order,
synchronously, with no isolation: an exception ends the dispatch. -/
def emit {α C E : Type} (three : Three α C E) :
    List (Listener C) → World α → Frame (World α) C E
  | [], w => { state := w, trace := [], thrown := none }
  | l :: rest, w =>
    match l.run three w with
    | { state := w1, thrown := none } =>
      let later := emit three rest w1
      { later with trace := .invoked l :: later.trace }
    | { state := w1, thrown := some e } =>
      { state := w1, trace := [.invoked l], thrown := some e }

/-- The method `animate`: `this.emit('prerender')`, then
`this.renderMethod.render(scene, camera)`. -/
def MyThree.animate {α C E : Type} (three : Three α C E) (t : MyThree α C) :
    Frame (MyThree α C) C E :=
  let emitted := emit three (t.listenersOf "prerender") t.world
  match emitted.thrown with
  | some e => { state := { t with world := emitted.state }, trace := emitted.trace, thrown := some e }
  | none =>
    let rendered := three.render emitted.state
    { state := { t with world := rendered.state },
      trace := emitted.trace ++ [.render],
      thrown := rendered.thrown }

/-! ## Construction and the render target -/

/-- The constructor `MyThree(scene)`, as far as the state above goes: the
camera (field of view 75, aspect of the window, planes 0.1 and 100, height 2),
the renderer as render target, no physics objects, an empty registry, and the
two `prerender` registrations in source order. -/
def MyThree.construct {α C E : Type} [JSNumber α] (three : Three α C E) (window : Window α)
    (nodes : NodeRef → Object3D α) (cameraRef : NodeRef) : MyThree α C :=
  let aspect := window.innerWidth / window.innerHeight
  let camera : Camera α :=
    { ref := cameraRef, fov := 75, aspect := aspect, near := 0.1, far := 100, height := 2,
      projectionMatrix := three.makePerspective 75 aspect 0.1 100 }
  let t : MyThree α C :=
    { world :=
        { nodes := Function.update nodes cameraRef three.cameraPose,
          camera := camera,
          renderMethod := .renderer,
          rendererSize := (window.innerWidth, window.innerHeight),
          physicsObjects := [],
          threeObjectsConnectedToPhysics := [] },
      listeners := [] }
  (t.on "prerender" .updatePositions).on "prerender" .tweenUpdate

/-- The method `useCardboard`. -/
def MyThree.useCardboard {α C E : Type} [JSNumber α] (three : Three α C E) (window : Window α)
    (t : MyThree α C) : MyThree α C :=
  let effect : RenderMethod α := .stereoEffect 0.008 0.25
  let aspect := window.innerWidth / window.innerHeight
  { t with world := { t.world with
      rendererSize := (window.innerWidth, window.innerHeight),
      renderMethod := effect,
      camera := { t.world.camera with
        aspect := aspect,
        projectionMatrix :=
          three.makePerspective t.world.camera.fov aspect t.world.camera.near t.world.camera.far } } }

/-! ## The ground query -/

/-- Insertion of a hit into a list ordered by distance. -/
def insertHit {α C E : Type} (three : Three α C E) (h : Intersection α) :
    List (Intersection α) → List (Intersection α)
  | [] => [h]
  | g :: rest => if three.nearer h g then h :: g :: rest else g :: insertHit three h rest

/-- The call `raycaster.intersectObjects(objects)` of three.js: every listed
object is tested in turn and the hits are returned nearest first. -/
def intersectObjects {α C E : Type} (three : Three α C E) (origin direction : Vector3 α)
    (near far : α) (objects : List NodeRef) : List (Intersection α) :=
  (objects.flatMap (three.intersectObject origin direction near far)).foldr (insertHit three) []

/-- A settled promise. -/
inductive Promise (β : Type) where
  | rejected (reason : String)
  | resolved (value : β)
deriving DecidableEq

/-- The hits of the ray that `getCameraPositionAbove` casts: from `point`
straight down, `new THREE.Raycaster(point, new THREE.Vector3(0, -1, 0), 0, 20)`. -/
def hitsBelow {α C E : Type} [JSNumber α] (three : Three α C E) (point : Vector3 α)
    (objects : List NodeRef) : List (Intersection α) :=
  intersectObjects three point { x := Nat.cast 0, y := -(Nat.cast 1), z := Nat.cast 0 }
    (Nat.cast 0) 20 objects

/-- The method `getCameraPositionAbove`. -/
def MyThree.getCameraPositionAbove {α C E : Type} [JSNumber α] (three : Three α C E)
    (t : MyThree α C) (point : Vector3 α) (objects : List NodeRef) : Promise (Vector3 α) :=
  let hits := hitsBelow three point objects
  match hits with
  | [] => .rejected "No Hit Below Postion"
  | first :: _ => .resolved { first.point with y := first.point.y + t.world.camera.height }

/-! ## The search by name -/

/-- A scene-graph object as `pickObjects` sees it: its identity, its `name` and
its `children`. -/
inductive SceneNode where
  | mk (ref : NodeRef) (name : String) (children : List SceneNode)

/-- The property `name`. -/
def SceneNode.name : SceneNode → String
  | .mk _ name _ => name

/-- The property `children`. -/
def SceneNode.children : SceneNode → List SceneNode
  | .mk _ _ children => children

/-- The method `Set.prototype.add`. -/
def JSSet.add (s : List String) (v : String) : List String :=
  if v ∈ s then s else s ++ [v]

/-- The constructor `new Set(values)`: the distinct values, in order of first
occurrence. -/
def JSSet.ofList (values : List String) : List String :=
  values.foldl JSSet.add []

/-- The method `Set.prototype.has`. -/
def JSSet.has (s : List String) (v : String) : Bool :=
  decide (v ∈ s)

/-- The method `Set.prototype.delete`. -/
def JSSet.delete (s : List String) (v : String) : List String :=
  s.erase v

/-- The object `collection` of `pickObjects`, created by `{}`: its own
properties and its prototype link, `none` while that is still
`Object.prototype`. -/
structure Collection where
  own : List (String × SceneNode)
  proto : Option SceneNode

/-- The assignment `collection[k] = node`. For `k = "__proto__"` the setter
inherited from `Object.prototype` runs: the node becomes the prototype and no
own property is created. Every other key becomes an own property; the two
properties a node is modelled with, `name` and `children`, are ordinary
writable ones, so a node that has become the prototype does not stand in the
way of that. -/
def Collection.set (c : Collection) (k : String) (node : SceneNode) : Collection :=
  if k = "__proto__" then { c with proto := some node }
  else { c with own := assign c.own k node }

/-- The two variables the traversal updates: `collection` and `names`. -/
structure PickState where
  collection : Collection
  names : List String

/-- The first statement of the callback given to `forEach` inside
`pickObjects`: a node whose name is still wanted is stored under that name and
the name is struck off. -/
def pickCollect (node : SceneNode) (st : PickState) : PickState :=
  if JSSet.has st.names node.name then
    { collection := st.collection.set node.name node,
      names := JSSet.delete st.names node.name }
  else st

mutual
/-- The callback `node => ...` given to `forEach` inside `pickObjects`. -/
def pickVisit : SceneNode → PickState → PickState
  | .mk ref name children, st =>
    let st1 := pickCollect (.mk ref name children) st
    if st1.names.length ≠ 0 then pickForEach children st1 else st1
/-- The call `root.children.forEach(...)` inside `pickObjects`. -/
def pickForEach : List SceneNode → PickState → PickState
  | [], st => st
  | node :: rest, st => pickForEach rest (pickVisit node st)
end

/-- What a call of `pickObjects` yields: the returned `collection` and the
lines written with `console.warn`. -/
structure PickResult where
  collection : Collection
  warnings : List String

/-- The method `pickObjects(root, ...namesIn)`. -/
def pickObjects (root : SceneNode) (namesIn : List String) : PickResult :=
  let st := pickForEach root.children
    { collection := { own := [], proto := none }, names := JSSet.ofList namesIn }
  { collection := st.collection,
    warnings :=
      match st.names with
      | [] => []
      | first :: _ => ["Not all objects found: " ++ first ++ " missing"] }

mutual
/-- A node followed by its descendants, in depth-first pre-order. -/
def preorderNode : SceneNode → List SceneNode
  | .mk ref name children => .mk ref name children :: preorder children
/-- The nodes of a forest, each tree in depth-first pre-order. -/
def preorder : List SceneNode → List SceneNode
  | [] => []
  | node :: rest => preorderNode node ++ preorder rest
end

/-- The strict descendants of `root` in depth-first pre-order. -/
def descendants (root : SceneNode) : List SceneNode :=
  preorder root.children

/-- Whether some strict descendant of `root` carries the name `k`. -/
def carried (root : SceneNode) (k : String) : Bool :=
  (descendants root).any (fun n => n.name = k)

/-! ## Scenarios -/

/-- A node connected under an id, together with the snapshot later reported
for that id. -/
structure Link (α : Type) where
  node : NodeRef
  id : Key
  position : Vector3 α
  quaternion : Option (Quaternion α)

/-- The calls `connectPhysicsToThree(node, {id})` for every link, in order. -/
def connectAll {α C : Type} (t : MyThree α C) (links : List (Link α)) : MyThree α C :=
  links.foldl (fun acc l => acc.connectPhysicsToThree l.node l.id) t

/-- The physics object `{id, position, quaternion}` of a link. -/
def Link.snapshot {α : Type} (l : Link α) : PhysicsObject α :=
  { id := l.id.name, position := some l.position, quaternion := l.quaternion }

/-- The calls `on('prerender', cb)` for every callback handle, in order. -/
def registerAll {α C : Type} (t : MyThree α C) (callbacks : List C) : MyThree α C :=
  callbacks.foldl (fun acc c => acc.on "prerender" (.callback c)) t

/-- Rational numbers as a stand-in for JavaScript numbers in concrete frames. -/
instance : JSNumber ℚ := {}

/-- Collaborators that do nothing: no rotation conversion, no tween, no
callback effect, no hit, a render call that leaves the state alone. -/
def idleThree : Three ℚ Nat String :=
  { setFromQuaternion := fun e _ => e,
    makePerspective := fun _ _ _ _ => { elements := [] },
    cameraPose := { position := ⟨0, 0, 0⟩, rotation := ⟨0, 0, 0, "XYZ"⟩ },
    intersectObject := fun _ _ _ _ _ => [],
    nearer := fun _ _ => true,
    tweenUpdate := fun w => { state := w, thrown := none },
    callback := fun _ w => { state := w, thrown := none },
    render := fun w => { state := w, thrown := none } }

/-- Collaborators as in `idleThree`, except that callback 0 throws. -/
def failingThree : Three ℚ Nat String :=
  { idleThree with
    callback := fun c w =>
      if c = 0 then { state := w, thrown := some (.raised "boom") }
      else { state := w, thrown := none } }

/-- A heap in which every object sits at the origin. -/
def restingNodes : NodeRef → Object3D ℚ :=
  fun _ => { position := ⟨0, 0, 0⟩, rotation := ⟨0, 0, 0, "XYZ"⟩ }

/-- Two nodes connected under two ids. -/
def sampleLinks : List (Link ℚ) :=
  [{ node := 1, id := ⟨"a", by decide⟩, position := ⟨1, 2, 3⟩, quaternion := none },
   { node := 2, id := ⟨"b", by decide⟩, position := ⟨4, 5, 6⟩, quaternion := none }]

/-- Two nodes connected under the same id. -/
def clashingLinks : List (Link ℚ) :=
  [{ node := 1, id := ⟨"a", by decide⟩, position := ⟨1, 2, 3⟩, quaternion := none },
   { node := 2, id := ⟨"a", by decide⟩, position := ⟨4, 5, 6⟩, quaternion := none }]

/-- One node connected under two ids. -/
def sharedNodeLinks : List (Link ℚ) :=
  [{ node := 1, id := ⟨"a", by decide⟩, position := ⟨1, 2, 3⟩, quaternion := none },
   { node := 1, id := ⟨"b", by decide⟩, position := ⟨4, 5, 6⟩, quaternion := none }]

/-- A snapshot whose id was never connected but names a property that every
plain object inherits. -/
def inheritedIdObject : PhysicsObject ℚ :=
  { id := "constructor", position := some ⟨1, 2, 3⟩, quaternion := none }

/-- A scene with a node named `__proto__` and a node named `head`. -/
def sceneWithProtoName : SceneNode :=
  .mk 0 "root" [.mk 1 "__proto__" [], .mk 2 "head" []]

/-- A small scene: `head` at depth 1 and `left_hand` at depth 3. -/
def figure : SceneNode :=
  .mk 0 "figure"
    [.mk 1 "head" [],
     .mk 2 "body" [.mk 3 "arm" [.mk 4 "left_hand" []], .mk 5 "head" []]]

/-- The same scene without the hand. -/
def figureWithoutHand : SceneNode :=
  .mk 0 "figure" [.mk 1 "head" [], .mk 2 "body" [.mk 3 "arm" []]]

/-- A freshly constructed instance in an 800 by 600 window; the camera is
object 0. -/
def freshThree : MyThree ℚ Nat :=
  MyThree.construct idleThree { innerWidth := 800, innerHeight := 600 } restingNodes 0

end Verlet

namespace Verlet

/-! ## Dictionaries -/

theorem ownProperty_assign {β : Type} (o : List (String × β)) (k k' : String) (v : β) :
    ownProperty (assign o k v) k' = if k' = k then some v else ownProperty o k' := by
  induction o with
  | nil =>
    by_cases h : k' = k
    · simp [assign, ownProperty, h]
    · have h' : ¬ k = k' := fun e => h e.symm
      simp [assign, ownProperty, h, h']
  | cons p rest ih =>
    obtain ⟨a, b⟩ := p
    by_cases hak : a = k
    · subst hak
      by_cases h : k' = a
      · simp [assign, ownProperty, h]
      · have h' : ¬ a = k' := fun e => h e.symm
        simp [assign, ownProperty, h, h']
    · by_cases h : k' = k
      · subst h
        simp [assign, ownProperty, hak, ih]
      · by_cases hak' : a = k'
        · simp [assign, ownProperty, hak, hak', h]
        · simp [assign, ownProperty, hak, hak', h, ih]

theorem getProperty_assign_same {β : Type} (o : List (String × β)) (k : String) (v : β) :
    getProperty (assign o k v) k = .own v := by
  simp [getProperty, ownProperty_assign]

theorem getProperty_assign_other {β : Type} (o : List (String × β)) (k k' : String) (v : β)
    (h : k' ≠ k) : getProperty (assign o k v) k' = getProperty o k' := by
  simp [getProperty, ownProperty_assign, h]

theorem vector3_set_eq {α : Type} (v p : Vector3 α) : v.set p.x p.y p.z = p := by
  cases p
  rfl

/-! ## The sync pass -/

theorem syncAll_cons_of_ok {α C E : Type} (three : Three α C E) (i : PhysicsObject α)
    (rest : List (PhysicsObject α)) (w : World α) (h : (syncObject three w i).thrown = none) :
    syncAll three (i :: rest) w = syncAll three rest (syncObject three w i).state := by
  rw [syncAll]
  generalize syncObject three w i = r at h
  obtain ⟨s, th⟩ := r
  simp only at h
  subst h
  rfl

theorem syncAll_cons_of_thrown {α C E : Type} (three : Three α C E) (i : PhysicsObject α)
    (rest : List (PhysicsObject α)) (w : World α) (e : Exception E)
    (h : (syncObject three w i).thrown = some e) :
    syncAll three (i :: rest) w = syncObject three w i := by
  rw [syncAll]
  generalize syncObject three w i = r at h
  obtain ⟨s, th⟩ := r
  simp only at h
  subst h
  rfl

theorem syncObject_registry {α C E : Type} (three : Three α C E) (w : World α)
    (i : PhysicsObject α) :
    (syncObject three w i).state.threeObjectsConnectedToPhysics
      = w.threeObjectsConnectedToPhysics := by
  unfold syncObject
  cases getProperty w.threeObjectsConnectedToPhysics i.id with
  | undefined => rfl
  | inherited => rfl
  | own node =>
    cases i.position with
    | none => rfl
    | some p => cases i.quaternion <;> rfl

theorem syncObject_of_undefined {α C E : Type} (three : Three α C E) (w : World α)
    (i : PhysicsObject α)
    (h : getProperty w.threeObjectsConnectedToPhysics i.id = .undefined) :
    syncObject three w i = { state := w, thrown := none } := by
  unfold syncObject
  rw [h]

theorem syncObject_of_own {α C E : Type} (three : Three α C E) (w : World α)
    (i : PhysicsObject α) (n : NodeRef) (p : Vector3 α)
    (h : getProperty w.threeObjectsConnectedToPhysics i.id = .own n) (hp : i.position = some p) :
    (syncObject three w i).thrown = none
      ∧ ((syncObject three w i).state.nodes n).position = p
      ∧ ∀ m, m ≠ n → (syncObject three w i).state.nodes m = w.nodes m := by
  unfold syncObject
  rw [h]
  simp only [hp]
  cases i.quaternion with
  | none =>
    refine ⟨rfl, ?_, ?_⟩
    · simp [World.setPosition, vector3_set_eq]
    · intro m hm
      simp [World.setPosition, Function.update_noteq hm]
  | some q =>
    refine ⟨rfl, ?_, ?_⟩
    · simp [World.setRotation, World.setPosition, vector3_set_eq]
    · intro m hm
      simp [World.setRotation, World.setPosition, Function.update_noteq hm]

theorem syncAll_of_undefined {α C E : Type} (three : Three α C E)
    (objs : List (PhysicsObject α)) (w : World α)
    (h : ∀ i ∈ objs, getProperty w.threeObjectsConnectedToPhysics i.id = .undefined) :
    syncAll three objs w = { state := w, thrown := none } := by
  induction objs with
  | nil => rfl
  | cons i rest ih =>
    have hi := syncObject_of_undefined three w i (h i (List.mem_cons_self _ _))
    rw [syncAll_cons_of_ok three i rest w (by rw [hi]), hi]
    exact ih (fun j hj => h j (List.mem_cons_of_mem _ hj))

theorem syncAll_append_of_undefined {α C E : Type} (three : Three α C E)
    (before after : List (PhysicsObject α)) (w : World α)
    (h : ∀ i ∈ before, getProperty w.threeObjectsConnectedToPhysics i.id = .undefined) :
    syncAll three (before ++ after) w = syncAll three after w := by
  induction before with
  | nil => rfl
  | cons i rest ih =>
    have hi := syncObject_of_undefined three w i (h i (List.mem_cons_self _ _))
    rw [List.cons_append, syncAll_cons_of_ok three i _ w (by rw [hi]), hi]
    exact ih (fun j hj => h j (List.mem_cons_of_mem _ hj))

theorem syncAll_links {α C E : Type} (three : Three α C E) (links : List (Link α))
    (hnodes : (links.map (fun l => l.node)).Nodup) (w : World α)
    (hres : ∀ l ∈ links,
      getProperty w.threeObjectsConnectedToPhysics l.id.name = .own l.node) :
    (syncAll three (links.map Link.snapshot) w).thrown = none
      ∧ (∀ l ∈ links,
          ((syncAll three (links.map Link.snapshot) w).state.nodes l.node).position = l.position)
      ∧ ∀ m, m ∉ links.map (fun l => l.node) →
          (syncAll three (links.map Link.snapshot) w).state.nodes m = w.nodes m := by
  induction links generalizing w with
  | nil => exact ⟨rfl, fun l hl => absurd hl (List.not_mem_nil l), fun m _ => rfl⟩
  | cons l rest ih =>
    have hl := syncObject_of_own three w l.snapshot l.node l.position
      (hres l (List.mem_cons_self _ _)) rfl
    obtain ⟨hok, hpos, hframe⟩ := hl
    have hnd := List.nodup_cons.mp hnodes
    have hres1 : ∀ l' ∈ rest, getProperty
        (syncObject three w l.snapshot).state.threeObjectsConnectedToPhysics l'.id.name
          = .own l'.node := by
      intro l' hl'
      rw [syncObject_registry]
      exact hres l' (List.mem_cons_of_mem _ hl')
    obtain ⟨ihok, ihpos, ihframe⟩ := ih hnd.2 (syncObject three w l.snapshot).state hres1
    rw [List.map_cons, syncAll_cons_of_ok three l.snapshot _ w hok]
    refine ⟨ihok, ?_, ?_⟩
    · intro l' hl'
      rcases List.mem_cons.mp hl' with h | h
      · subst h
        rw [ihframe l'.node hnd.1]
        exact hpos
      · exact ihpos l' h
    · intro m hm
      have hm' : m ≠ l.node ∧ m ∉ rest.map (fun l => l.node) := by
        simpa [List.mem_cons, not_or] using hm
      rw [ihframe m hm'.2]
      exact hframe m hm'.1

/-! ## The registry -/

theorem connectAll_listeners {α C : Type} (t : MyThree α C) (links : List (Link α)) :
    (connectAll t links).listeners = t.listeners := by
  induction links generalizing t with
  | nil => rfl
  | cons l rest ih => exact ih (t.connectPhysicsToThree l.node l.id)

theorem connectAll_other {α C : Type} (t : MyThree α C) (links : List (Link α)) (k : String)
    (hk : k ∉ links.map (fun l => l.id.name)) :
    getProperty (connectAll t links).world.threeObjectsConnectedToPhysics k
      = getProperty t.world.threeObjectsConnectedToPhysics k := by
  induction links generalizing t with
  | nil => rfl
  | cons l rest ih =>
    have hk' : k ≠ l.id.name ∧ k ∉ rest.map (fun l => l.id.name) := by
      simpa [List.mem_cons, not_or] using hk
    show getProperty (connectAll (t.connectPhysicsToThree l.node l.id) rest).world.threeObjectsConnectedToPhysics k = _
    rw [ih (t.connectPhysicsToThree l.node l.id) hk'.2]
    exact getProperty_assign_other _ _ _ _ hk'.1

theorem connectAll_resolves {α C : Type} (t : MyThree α C) (links : List (Link α))
    (hids : (links.map (fun l => l.id.name)).Nodup) :
    ∀ l ∈ links,
      getProperty (connectAll t links).world.threeObjectsConnectedToPhysics l.id.name
        = .own l.node := by
  induction links generalizing t with
  | nil => exact fun l hl => absurd hl (List.not_mem_nil l)
  | cons l rest ih =>
    have hnd := List.nodup_cons.mp hids
    intro l' hl'
    rcases List.mem_cons.mp hl' with h | h
    · subst h
      show getProperty (connectAll (t.connectPhysicsToThree l'.node l'.id) rest).world.threeObjectsConnectedToPhysics l'.id.name = _
      rw [connectAll_other _ rest _ hnd.1]
      exact getProperty_assign_same _ _ _
    · exact ih (t.connectPhysicsToThree l.node l.id) hnd.2 l' h

/-! ## Dispatch -/

theorem emit_cons_of_ok {α C E : Type} (three : Three α C E) (l : Listener C)
    (rest : List (Listener C)) (w : World α) (h : (l.run three w).thrown = none) :
    emit three (l :: rest) w
      = { emit three rest (l.run three w).state with
          trace := .invoked l :: (emit three rest (l.run three w).state).trace } := by
  rw [emit]
  generalize l.run three w = r at h
  obtain ⟨s, th⟩ := r
  simp only at h
  subst h
  rfl

theorem emit_cons_of_thrown {α C E : Type} (three : Three α C E) (l : Listener C)
    (rest : List (Listener C)) (w : World α) (e : Exception E)
    (h : (l.run three w).thrown = some e) :
    emit three (l :: rest) w
      = { state := (l.run three w).state, trace := [.invoked l], thrown := some e } := by
  rw [emit]
  generalize l.run three w = r at h
  obtain ⟨s, th⟩ := r
  simp only at h
  subst h
  rfl

theorem emit_nodes {α C E : Type} (three : Three α C E) (ls : List (Listener C))
    (hls : ∀ l ∈ ls, ∀ w, (l.run three w).state.nodes = w.nodes) (w : World α) :
    (emit three ls w).state.nodes = w.nodes := by
  induction ls generalizing w with
  | nil => rfl
  | cons l rest ih =>
    have hl := hls l (List.mem_cons_self _ _) w
    cases hth : (l.run three w).thrown with
    | none =>
      rw [emit_cons_of_ok three l rest w hth]
      show (emit three rest (l.run three w).state).state.nodes = w.nodes
      rw [ih (fun l' hl' => hls l' (List.mem_cons_of_mem _ hl'))]
      exact hl
    | some e =>
      rw [emit_cons_of_thrown three l rest w e hth]
      exact hl

theorem emit_head_nodes {α C E : Type} (three : Three α C E) (l : Listener C)
    (rest : List (Listener C))
    (hrest : ∀ l' ∈ rest, ∀ w, (l'.run three w).state.nodes = w.nodes) (w : World α) :
    (emit three (l :: rest) w).state.nodes = (l.run three w).state.nodes := by
  cases hth : (l.run three w).thrown with
  | none =>
    rw [emit_cons_of_ok three l rest w hth]
    exact emit_nodes three rest hrest _
  | some e =>
    rw [emit_cons_of_thrown three l rest w e hth]

theorem animate_nodes {α C E : Type} (three : Three α C E) (t : MyThree α C)
    (hrender : ∀ w, (three.render w).state.nodes = w.nodes) :
    (t.animate three).state.world.nodes
      = (emit three (t.listenersOf "prerender") t.world).state.nodes := by
  unfold MyThree.animate
  cases hth : (emit three (t.listenersOf "prerender") t.world).thrown with
  | none => simp only [hth]; exact hrender _
  | some e => simp only [hth]

theorem construct_listenersOf {α C E : Type} [JSNumber α] (three : Three α C E)
    (window : Window α) (nodes : NodeRef → Object3D α) (cameraRef : NodeRef) :
    (MyThree.construct three window nodes cameraRef : MyThree α C).listenersOf "prerender"
      = [.updatePositions, .tweenUpdate] := by
  simp [MyThree.construct, MyThree.on, MyThree.listenersOf]

theorem animate_nodes_of_builtin {α C E : Type} (three : Three α C E) (t : MyThree α C)
    (hls : t.listenersOf "prerender" = [.updatePositions, .tweenUpdate])
    (htween : ∀ w, (three.tweenUpdate w).state.nodes = w.nodes)
    (hrender : ∀ w, (three.render w).state.nodes = w.nodes) :
    (t.animate three).state.world.nodes
      = (syncAll three t.world.physicsObjects t.world).state.nodes := by
  rw [animate_nodes three t hrender, hls, emit_head_nodes]
  · rfl
  · intro l hl w
    rw [List.mem_singleton] at hl
    subst hl
    exact htween w

/-! ## Claims about the registry, the tracked list and the sync pass -/

/-- C1 (as amended): after `connectPhysicsToThree(node_i, {id: id_i})` for links
with pairwise distinct ids and pairwise distinct nodes, `updateObjects` with the
snapshot of every link and one `animate()`, the position of each `node_i` is
`position_i`, provided the tween update and the render call leave the
scene-graph poses alone. -/
theorem C1_sync_copies_linked_positions {α C E : Type} [JSNumber α] (three : Three α C E)
    (window : Window α) (nodes : NodeRef → Object3D α) (cameraRef : NodeRef)
    (links : List (Link α))
    (hids : (links.map (fun l => l.id.name)).Nodup)
    (hnodes : (links.map (fun l => l.node)).Nodup)
    (htween : ∀ w, (three.tweenUpdate w).state.nodes = w.nodes)
    (hrender : ∀ w, (three.render w).state.nodes = w.nodes) :
    ∀ l ∈ links,
      ((((connectAll (MyThree.construct three window nodes cameraRef) links).updateObjects
          (links.map Link.snapshot)).animate three).state.world.nodes l.node).position
        = l.position := by
  intro l hl
  have hls : ((connectAll (MyThree.construct three window nodes cameraRef : MyThree α C)
      links).updateObjects (links.map Link.snapshot)).listenersOf "prerender"
        = [.updatePositions, .tweenUpdate] := by
    have h := construct_listenersOf (C := C) three window nodes cameraRef
    unfold MyThree.listenersOf at h ⊢
    show (List.filter _ (connectAll _ links).listeners).map Prod.snd = _
    rw [connectAll_listeners]
    exact h
  rw [animate_nodes_of_builtin three _ hls htween hrender]
  have hobjs : ((connectAll (MyThree.construct three window nodes cameraRef : MyThree α C)
      links).updateObjects (links.map Link.snapshot)).world.physicsObjects
        = links.map Link.snapshot := by
    simp [MyThree.updateObjects, splice, push]
  rw [hobjs]
  exact (syncAll_links three links hnodes
    ((connectAll (MyThree.construct three window nodes cameraRef : MyThree α C)
      links).updateObjects (links.map Link.snapshot)).world
    (fun l' hl' => connectAll_resolves (MyThree.construct three window nodes cameraRef) links
      hids l' hl')).2.1 l hl

/-- C1, an instance: two nodes connected under the ids `a` and `b`; after the
tick the first node is at the position reported for `a`. -/
theorem C1_sync_copies_linked_positions_witness :
    ((((connectAll freshThree sampleLinks).updateObjects
        (sampleLinks.map Link.snapshot)).animate idleThree).state.world.nodes 1).position
      = ⟨1, 2, 3⟩ :=
  C1_sync_copies_linked_positions idleThree { innerWidth := 800, innerHeight := 600 }
    restingNodes 0 sampleLinks (by decide) (by decide) (fun _ => rfl) (fun _ => rfl)
    { node := 1, id := ⟨"a", by decide⟩, position := ⟨1, 2, 3⟩, quaternion := none }
    (List.mem_cons_self _ _)

/-- C1 as stated fails: when two nodes are connected under the same id the
first one stays where it was, and when one node is connected under two ids it
ends at the position reported last. -/
theorem C1_fails_for_repeated_id_or_node :
    ((((connectAll freshThree clashingLinks).updateObjects
        (clashingLinks.map Link.snapshot)).animate idleThree).state.world.nodes 1).position
      = ⟨0, 0, 0⟩
    ∧ ((((connectAll freshThree clashingLinks).updateObjects
        (clashingLinks.map Link.snapshot)).animate idleThree).state.world.nodes 1).position
      ≠ ⟨1, 2, 3⟩
    ∧ ((((connectAll freshThree sharedNodeLinks).updateObjects
        (sharedNodeLinks.map Link.snapshot)).animate idleThree).state.world.nodes 1).position
      = ⟨4, 5, 6⟩
    ∧ ((((connectAll freshThree sharedNodeLinks).updateObjects
        (sharedNodeLinks.map Link.snapshot)).animate idleThree).state.world.nodes 1).position
      ≠ ⟨1, 2, 3⟩ := by
  decide

/-- C2, the failing input: on a fresh instance, where no id was ever connected,
a tracked object with the id `constructor` makes the sync pass throw a
`TypeError`; the frame ends after `updatePositions`, before any other listener
and before the render call. -/
theorem C2_unconnected_inherited_id_throws :
    getProperty freshThree.world.threeObjectsConnectedToPhysics inheritedIdObject.id
        = .inherited
      ∧ (updatePositions idleThree (freshThree.updateObjects [inheritedIdObject]).world).thrown
        = some .typeError
      ∧ ((freshThree.updateObjects [inheritedIdObject]).animate idleThree).thrown
        = some .typeError
      ∧ ((freshThree.updateObjects [inheritedIdObject]).animate idleThree).trace
        = [.invoked .updatePositions] := by
  decide

/-- The skip property where it does hold: a tracked object whose id is neither
an own property of the registry nor a name inherited from `Object.prototype`
is passed over without an exception and without a write. -/
theorem syncObject_skips_unmapped {α C E : Type} (three : Three α C E) (w : World α)
    (i : PhysicsObject α)
    (hown : ownProperty w.threeObjectsConnectedToPhysics i.id = none)
    (hname : i.id ∉ objectPrototypeNames) :
    syncObject three w i = { state := w, thrown := none } := by
  apply syncObject_of_undefined
  simp [getProperty, hown, hname]

/-- C3: on a fresh instance, after `connectPhysicsToThree(oldNode, {id})` and
then `connectPhysicsToThree(newNode, {id})` with distinct nodes, an `animate()`
whose tracked list holds one object `o` of that id (the other tracked ids being
unconnected and not inherited names) puts `newNode` at the position of `o` and
leaves `oldNode` as it was, provided the tween update and the render call leave
the scene-graph poses alone. -/
theorem C3_reconnect_moves_only_newest {α C E : Type} [JSNumber α] (three : Three α C E)
    (window : Window α) (nodes : NodeRef → Object3D α) (cameraRef : NodeRef)
    (id : Key) (oldNode newNode : NodeRef) (before after : List (PhysicsObject α))
    (o : PhysicsObject α) (p : Vector3 α)
    (hne : oldNode ≠ newNode)
    (hid : o.id = id.name) (hp : o.position = some p)
    (hothers : ∀ i ∈ before ++ after, i.id ≠ id.name ∧ i.id ∉ objectPrototypeNames)
    (htween : ∀ w, (three.tweenUpdate w).state.nodes = w.nodes)
    (hrender : ∀ w, (three.render w).state.nodes = w.nodes) :
    ((((((MyThree.construct three window nodes cameraRef : MyThree α C).connectPhysicsToThree
        oldNode id).connectPhysicsToThree newNode id).updateObjects
          (before ++ o :: after)).animate three).state.world.nodes newNode).position = p
      ∧ (((((MyThree.construct three window nodes cameraRef : MyThree α C).connectPhysicsToThree
        oldNode id).connectPhysicsToThree newNode id).updateObjects
          (before ++ o :: after)).animate three).state.world.nodes oldNode
        = ((((MyThree.construct three window nodes cameraRef : MyThree α C).connectPhysicsToThree
        oldNode id).connectPhysicsToThree newNode id).updateObjects
          (before ++ o :: after)).world.nodes oldNode := by
  have hls : ((((MyThree.construct three window nodes cameraRef :
      MyThree α C).connectPhysicsToThree oldNode id).connectPhysicsToThree newNode
        id).updateObjects (before ++ o :: after)).listenersOf "prerender"
          = [.updatePositions, .tweenUpdate] :=
    construct_listenersOf three window nodes cameraRef
  rw [animate_nodes_of_builtin three _ hls htween hrender]
  have hobjs : ((((MyThree.construct three window nodes cameraRef :
      MyThree α C).connectPhysicsToThree oldNode id).connectPhysicsToThree newNode
        id).updateObjects (before ++ o :: after)).world.physicsObjects
          = before ++ o :: after := by
    simp [MyThree.updateObjects, splice, push]
  rw [hobjs]
  generalize hw : ((((MyThree.construct three window nodes cameraRef :
      MyThree α C).connectPhysicsToThree oldNode id).connectPhysicsToThree newNode
        id).updateObjects (before ++ o :: after)).world = w
  have hreg : w.threeObjectsConnectedToPhysics
      = assign (assign [] id.name oldNode) id.name newNode := by
    rw [← hw]; rfl
  have hskip : ∀ i ∈ before ++ after,
      getProperty w.threeObjectsConnectedToPhysics i.id = .undefined := by
    intro i hi
    obtain ⟨h1, h2⟩ := hothers i hi
    rw [hreg, getProperty_assign_other _ _ _ _ h1, getProperty_assign_other _ _ _ _ h1]
    simp [getProperty, ownProperty, h2]
  have hown : getProperty w.threeObjectsConnectedToPhysics o.id = .own newNode := by
    rw [hreg, hid]
    exact getProperty_assign_same _ _ _
  obtain ⟨hok, hpos, hframe⟩ := syncObject_of_own three w o newNode p hown hp
  have hrun : syncAll three (before ++ o :: after) w = syncObject three w o := by
    rw [syncAll_append_of_undefined three before _ w
        (fun i hi => hskip i (List.mem_append_left _ hi)),
      syncAll_cons_of_ok three o after w hok]
    have hrest := syncAll_of_undefined three after (syncObject three w o).state (by
      intro i hi
      rw [syncObject_registry]
      exact hskip i (List.mem_append_right _ hi))
    rw [hrest]
    cases hso : syncObject three w o with
    | mk st th =>
      rw [hso] at hok
      simp only at hok
      subst hok
      rfl
  rw [hrun]
  exact ⟨hpos, hframe oldNode hne⟩

/-- C3, an instance: node 1 and then node 2 are connected under `a`; the tick
moves node 2 to the reported position and leaves node 1 alone. -/
theorem C3_reconnect_moves_only_newest_witness :
    (((((freshThree.connectPhysicsToThree 1 ⟨"a", by decide⟩).connectPhysicsToThree 2
        ⟨"a", by decide⟩).updateObjects
          ([{ id := "c", position := none, quaternion := none }]
            ++ { id := "a", position := some ⟨1, 2, 3⟩, quaternion := none }
              :: [])).animate idleThree).state.world.nodes 2).position = ⟨1, 2, 3⟩
      ∧ ((((freshThree.connectPhysicsToThree 1 ⟨"a", by decide⟩).connectPhysicsToThree 2
        ⟨"a", by decide⟩).updateObjects
          ([{ id := "c", position := none, quaternion := none }]
            ++ { id := "a", position := some ⟨1, 2, 3⟩, quaternion := none }
              :: [])).animate idleThree).state.world.nodes 1
        = (((freshThree.connectPhysicsToThree 1 ⟨"a", by decide⟩).connectPhysicsToThree 2
        ⟨"a", by decide⟩).updateObjects
          ([{ id := "c", position := none, quaternion := none }]
            ++ { id := "a", position := some ⟨1, 2, 3⟩, quaternion := none }
              :: [])).world.nodes 1 :=
  C3_reconnect_moves_only_newest idleThree { innerWidth := 800, innerHeight := 600 }
    restingNodes 0 ⟨"a", by decide⟩ 1 2
    [{ id := "c", position := none, quaternion := none }] []
    { id := "a", position := some ⟨1, 2, 3⟩, quaternion := none } ⟨1, 2, 3⟩
    (by decide) rfl rfl (by decide) (fun _ => rfl) (fun _ => rfl)

/-- C6: `updateObjects(newObjects)` makes the tracked list exactly `newObjects`,
in order, whatever it held before, and changes neither the registry nor the
poses, the camera, the render target or the listeners. -/
theorem C6_updateObjects_replaces_tracked_list {α C : Type} (t : MyThree α C)
    (newObjects : List (PhysicsObject α)) :
    (t.updateObjects newObjects).world.physicsObjects = newObjects
      ∧ (t.updateObjects newObjects).world.threeObjectsConnectedToPhysics
          = t.world.threeObjectsConnectedToPhysics
      ∧ (t.updateObjects newObjects).world.nodes = t.world.nodes
      ∧ (t.updateObjects newObjects).world.camera = t.world.camera
      ∧ (t.updateObjects newObjects).world.renderMethod = t.world.renderMethod
      ∧ (t.updateObjects newObjects).listeners = t.listeners := by
  simp [MyThree.updateObjects, splice, push]

/-! ## Claims about the frame -/

theorem listenersOf_on {α C : Type} (t : MyThree α C) (event : String) (l : Listener C) :
    (t.on event l).listenersOf event = t.listenersOf event ++ [l] := by
  simp [MyThree.on, MyThree.listenersOf, List.filter_append, List.filter_cons]

theorem registerAll_listenersOf {α C : Type} (t : MyThree α C) (cbs : List C) :
    (registerAll t cbs).listenersOf "prerender"
      = t.listenersOf "prerender" ++ cbs.map Listener.callback := by
  induction cbs generalizing t with
  | nil => simp [registerAll]
  | cons c rest ih =>
    show (registerAll (t.on "prerender" (.callback c)) rest).listenersOf "prerender" = _
    rw [ih, listenersOf_on]
    simp

theorem emit_trace_of_ok {α C E : Type} (three : Three α C E) (ls : List (Listener C))
    (w : World α) (h : (emit three ls w).thrown = none) :
    (emit three ls w).trace = ls.map Event.invoked := by
  induction ls generalizing w with
  | nil => rfl
  | cons l rest ih =>
    cases hth : (l.run three w).thrown with
    | none =>
      rw [emit_cons_of_ok three l rest w hth] at h ⊢
      simp only [List.map_cons, List.cons.injEq, true_and]
      exact ih _ h
    | some e =>
      rw [emit_cons_of_thrown three l rest w e hth] at h
      simp at h

theorem emit_append_of_ok {α C E : Type} (three : Three α C E) (pre rest : List (Listener C))
    (w : World α) (h : (emit three pre w).thrown = none) :
    emit three (pre ++ rest) w
      = { emit three rest (emit three pre w).state with
          trace := pre.map Event.invoked ++ (emit three rest (emit three pre w).state).trace } := by
  induction pre generalizing w with
  | nil => rfl
  | cons l pre' ih =>
    cases hth : (l.run three w).thrown with
    | none =>
      rw [emit_cons_of_ok three l pre' w hth] at h
      rw [List.cons_append, emit_cons_of_ok three l _ w hth, ih _ h,
        emit_cons_of_ok three l pre' w hth]
      rfl
    | some e =>
      rw [emit_cons_of_thrown three l pre' w e hth] at h
      simp at h

/-- C4 (as amended): on an instance whose first `prerender` registration is
the constructor's position sync, after `on('prerender', cb)` for a list of
callbacks, a frame in which no listener throws invokes the position sync first,
then the listeners registered before the callbacks (for a fresh instance, the
tween update), then every callback once in registration order, and calls
`render` last. -/
theorem C4_listeners_run_once_in_order {α C E : Type} (three : Three α C E) (t : MyThree α C)
    (earlier : List (Listener C)) (cbs : List C)
    (hfirst : t.listenersOf "prerender" = .updatePositions :: earlier)
    (hok : (emit three ((registerAll t cbs).listenersOf "prerender")
      (registerAll t cbs).world).thrown = none) :
    ((registerAll t cbs).animate three).trace
      = .invoked .updatePositions
          :: (earlier.map Event.invoked
            ++ cbs.map (fun c => Event.invoked (Listener.callback c)) ++ [.render]) := by
  unfold MyThree.animate
  simp only [hok]
  rw [emit_trace_of_ok three _ _ hok, registerAll_listenersOf, hfirst]
  simp

/-- C4, an instance: three callbacks registered on a fresh instance. -/
theorem C4_listeners_run_once_in_order_witness :
    ((registerAll freshThree [7, 8, 7]).animate idleThree).trace
      = [.invoked .updatePositions, .invoked .tweenUpdate, .invoked (.callback 7),
         .invoked (.callback 8), .invoked (.callback 7), .render] :=
  C4_listeners_run_once_in_order idleThree freshThree [.tweenUpdate] [7, 8, 7]
    (by decide) (by decide)

/-- C4 as stated fails: when the first of two registered callbacks throws, the
second is not invoked at all. -/
theorem C4_fails_when_a_callback_throws :
    ((registerAll freshThree [0, 1]).animate failingThree).trace
        = [.invoked .updatePositions, .invoked .tweenUpdate, .invoked (.callback 0)]
      ∧ Event.invoked (Listener.callback 1)
        ∉ ((registerAll freshThree [0, 1]).animate failingThree).trace := by
  decide

/-- C5: when the listeners before `c` complete and `c` throws `e`, `animate`
ends with `e`, the listeners invoked are exactly those up to and including `c`
(none of those registered after it), and `render` is not called. -/
theorem C5_throwing_listener_aborts_frame {α C E : Type} (three : Three α C E)
    (t : MyThree α C) (pre post : List (Listener C)) (c : Listener C) (e : Exception E)
    (hls : t.listenersOf "prerender" = pre ++ c :: post)
    (hpre : (emit three pre t.world).thrown = none)
    (hthrow : (c.run three (emit three pre t.world).state).thrown = some e) :
    (t.animate three).thrown = some e
      ∧ (t.animate three).trace = (pre ++ [c]).map Event.invoked
      ∧ Event.render ∉ (t.animate three).trace := by
  have hemit : emit three (pre ++ c :: post) t.world
      = { state := (c.run three (emit three pre t.world).state).state,
          trace := pre.map Event.invoked ++ [.invoked c], thrown := some e } := by
    rw [emit_append_of_ok three pre _ t.world hpre, emit_cons_of_thrown three c post _ e hthrow]
  unfold MyThree.animate
  rw [hls, hemit]
  simp

/-- C5, an instance: callback 0 throws, callback 1 is registered after it. -/
theorem C5_throwing_listener_aborts_frame_witness :
    ((registerAll freshThree [0, 1]).animate failingThree).thrown = some (.raised "boom")
      ∧ ((registerAll freshThree [0, 1]).animate failingThree).trace
        = ([Listener.updatePositions, Listener.tweenUpdate]
            ++ [Listener.callback 0]).map Event.invoked
      ∧ Event.render ∉ ((registerAll freshThree [0, 1]).animate failingThree).trace :=
  C5_throwing_listener_aborts_frame failingThree (registerAll freshThree [0, 1])
    [.updatePositions, .tweenUpdate] [.callback 1] (.callback 0) (.raised "boom")
    (by decide) (by decide) (by decide)

/-! ## Claims about the ground query and the render target -/

/-- C9: `getCameraPositionAbove` rejects with `'No Hit Below Postion'` exactly
when the downward ray cast returns no intersection, which is the case for every
point when no object is listed; otherwise it resolves with the first hit's
point, its `y` raised by the camera height, and the constructor sets that
height to 2. -/
theorem C9_ground_query_rejects_iff_no_hit {α C E : Type} [JSNumber α] (three : Three α C E)
    (t : MyThree α C) (point : Vector3 α) (objects : List NodeRef) (window : Window α)
    (nodes : NodeRef → Object3D α) (cameraRef : NodeRef) :
    (t.getCameraPositionAbove three point objects = .rejected "No Hit Below Postion"
        ↔ hitsBelow three point objects = [])
      ∧ hitsBelow three point [] = []
      ∧ t.getCameraPositionAbove three point [] = .rejected "No Hit Below Postion"
      ∧ (∀ first rest, hitsBelow three point objects = first :: rest →
          t.getCameraPositionAbove three point objects
            = .resolved { first.point with y := first.point.y + t.world.camera.height })
      ∧ (MyThree.construct three window nodes cameraRef : MyThree α C).world.camera.height = 2 := by
  refine ⟨?_, rfl, rfl, ?_, rfl⟩
  · unfold MyThree.getCameraPositionAbove
    cases hitsBelow three point objects with
    | nil => simp
    | cons first rest => simp
  · intro first rest h
    unfold MyThree.getCameraPositionAbove
    rw [h]

/-- C10 (as amended): `useCardboard` makes the stereo effect (eye separation
0.008, target distance 0.25) the render target, sets the camera's `aspect` to
the current window ratio and recomputes its projection matrix from it; the
camera's other fields, every pose (the camera's included), the tracked list,
the registry and the listeners stay as they were. -/
theorem C10_useCardboard_swaps_render_target {α C E : Type} [JSNumber α]
    (three : Three α C E) (window : Window α) (t : MyThree α C) :
    (t.useCardboard three window).world.renderMethod = .stereoEffect 0.008 0.25
      ∧ (t.useCardboard three window).world.camera.aspect
          = window.innerWidth / window.innerHeight
      ∧ (t.useCardboard three window).world.camera.projectionMatrix
          = three.makePerspective t.world.camera.fov (window.innerWidth / window.innerHeight)
              t.world.camera.near t.world.camera.far
      ∧ (t.useCardboard three window).world.camera.ref = t.world.camera.ref
      ∧ (t.useCardboard three window).world.camera.fov = t.world.camera.fov
      ∧ (t.useCardboard three window).world.camera.near = t.world.camera.near
      ∧ (t.useCardboard three window).world.camera.far = t.world.camera.far
      ∧ (t.useCardboard three window).world.camera.height = t.world.camera.height
      ∧ (t.useCardboard three window).world.nodes = t.world.nodes
      ∧ (t.useCardboard three window).world.physicsObjects = t.world.physicsObjects
      ∧ (t.useCardboard three window).world.threeObjectsConnectedToPhysics
          = t.world.threeObjectsConnectedToPhysics
      ∧ (t.useCardboard three window).listeners = t.listeners := by
  simp [MyThree.useCardboard]

/-- C10 as stated fails: on an instance constructed in an 800 by 600 window,
`useCardboard` called once the window measures 500 by 500 changes the camera's
`aspect` from 4/3 to 1. -/
theorem C10_useCardboard_changes_camera_aspect :
    freshThree.world.camera.aspect = 4 / 3
      ∧ (freshThree.useCardboard idleThree { innerWidth := 500, innerHeight := 500 }).world.camera.aspect
          = 1
      ∧ (freshThree.useCardboard idleThree { innerWidth := 500, innerHeight := 500 }).world.camera
          ≠ freshThree.world.camera := by
  have h1 : freshThree.world.camera.aspect = 4 / 3 := by
    show (800 : ℚ) / 600 = 4 / 3
    norm_num
  have h2 : (freshThree.useCardboard idleThree
      { innerWidth := 500, innerHeight := 500 }).world.camera.aspect = 1 := by
    show (500 : ℚ) / 500 = 1
    norm_num
  refine ⟨h1, h2, ?_⟩
  intro h
  have h3 := congrArg Camera.aspect h
  rw [h1, h2] at h3
  norm_num at h3

/-! ## The search by name -/

theorem pickCollect_of_no_names (node : SceneNode) (st : PickState) (h : st.names = []) :
    pickCollect node st = st := by
  simp [pickCollect, JSSet.has, h]

theorem foldl_pickCollect_of_no_names (nodes : List SceneNode) (st : PickState)
    (h : st.names = []) :
    nodes.foldl (fun s n => pickCollect n s) st = st := by
  induction nodes with
  | nil => rfl
  | cons n rest ih => rw [List.foldl_cons, pickCollect_of_no_names n st h, ih]

mutual
theorem pickVisit_eq_foldl : ∀ (node : SceneNode) (st : PickState),
    pickVisit node st = (preorderNode node).foldl (fun s n => pickCollect n s) st
  | .mk ref name children, st => by
    rw [pickVisit, preorderNode, List.foldl_cons]
    by_cases h : (pickCollect (.mk ref name children) st).names.length ≠ 0
    · rw [if_pos h]
      exact pickForEach_eq_foldl children _
    · rw [if_neg h]
      have h0 : (pickCollect (.mk ref name children) st).names = [] := by
        simpa using h
      exact (foldl_pickCollect_of_no_names _ _ h0).symm
theorem pickForEach_eq_foldl : ∀ (nodes : List SceneNode) (st : PickState),
    pickForEach nodes st = (preorder nodes).foldl (fun s n => pickCollect n s) st
  | [], st => by rw [pickForEach, preorder]; rfl
  | node :: rest, st => by
    rw [pickForEach, preorder, List.foldl_append, pickForEach_eq_foldl rest,
      pickVisit_eq_foldl node]
end

theorem foldl_pickCollect (nodes : List SceneNode) (st : PickState)
    (hnodup : st.names.Nodup)
    (hfresh : ∀ k ∈ st.names, ownProperty st.collection.own k = none) :
    (nodes.foldl (fun s n => pickCollect n s) st).names
        = st.names.filter (fun k => !nodes.any (fun n => decide (n.name = k)))
      ∧ (∀ k, k ≠ "__proto__" →
          ownProperty (nodes.foldl (fun s n => pickCollect n s) st).collection.own k
            = (ownProperty st.collection.own k).or
                (if k ∈ st.names then nodes.find? (fun n => decide (n.name = k)) else none))
      ∧ ownProperty (nodes.foldl (fun s n => pickCollect n s) st).collection.own "__proto__"
          = ownProperty st.collection.own "__proto__"
      ∧ (nodes.foldl (fun s n => pickCollect n s) st).collection.proto
          = (if "__proto__" ∈ st.names then
              nodes.find? (fun n => decide (n.name = "__proto__")) else none).or
                st.collection.proto := by
  induction nodes generalizing st with
  | nil =>
    refine ⟨by simp, fun k _ => ?_, rfl, ?_⟩
    · simp only [List.foldl_nil, List.find?_nil, ite_self, Option.or_none]
    · simp only [List.foldl_nil, List.find?_nil, ite_self, Option.none_or]
  | cons n rest ih =>
    rw [List.foldl_cons]
    by_cases hn : n.name ∈ st.names
    · have hstep : pickCollect n st
          = ⟨st.collection.set n.name n, st.names.erase n.name⟩ := by
        simp [pickCollect, JSSet.has, JSSet.delete, hn]
      rw [hstep]
      have hnd1 : (st.names.erase n.name).Nodup := hnodup.erase _
      have hown : ∀ k, ownProperty (st.collection.set n.name n).own k
          = if k = n.name ∧ n.name ≠ "__proto__" then some n
            else ownProperty st.collection.own k := by
        intro k
        unfold Collection.set
        by_cases hp : n.name = "__proto__"
        · simp [hp]
        · simp only [hp, if_false, ownProperty_assign, ne_eq, not_false_eq_true, and_true]
      have hfresh1 : ∀ k ∈ st.names.erase n.name,
          ownProperty (st.collection.set n.name n).own k = none := by
        intro k hk
        have hk' := (hnodup.mem_erase_iff).mp hk
        rw [hown k, if_neg (fun h => hk'.1 h.1)]
        exact hfresh k hk'.2
      obtain ⟨ihn, ihc, ihp, ihq⟩ :=
        ih ⟨st.collection.set n.name n, st.names.erase n.name⟩ hnd1 hfresh1
      refine ⟨?_, fun k hkp => ?_, ?_, ?_⟩
      · rw [ihn]
        simp only
        rw [hnodup.erase_eq_filter, List.filter_filter]
        apply List.filter_congr
        intro k _
        by_cases hk : n.name = k
        · simp [hk]
        · have hk' : ¬ k = n.name := fun e => hk e.symm
          simp [hk, hk']
      · rw [ihc k hkp]
        simp only
        rw [hown k]
        by_cases hk : k = n.name
        · subst hk
          simp [hfresh _ hn, hn, hkp]
        · have hk' : ¬ n.name = k := fun e => hk e.symm
          rw [if_neg (fun h => hk h.1)]
          have hmem : k ∈ st.names.erase n.name ↔ k ∈ st.names := by
            rw [hnodup.mem_erase_iff]
            exact ⟨fun h => h.2, fun h => ⟨hk, h⟩⟩
          have hfind : List.find? (fun m => decide (m.name = k)) (n :: rest)
              = List.find? (fun m => decide (m.name = k)) rest :=
            List.find?_cons_of_neg _ (by simpa using hk')
          rw [hfind]
          by_cases hks : k ∈ st.names
          · rw [if_pos (hmem.mpr hks), if_pos hks]
          · rw [if_neg (fun h => hks (hmem.mp h)), if_neg hks]
      · rw [ihp]
        simp only
        rw [hown "__proto__", if_neg (fun h => h.2 h.1.symm)]
      · rw [ihq]
        simp only
        by_cases hp : n.name = "__proto__"
        · have hnot : "__proto__" ∉ st.names.erase n.name := by
            rw [hp]
            exact fun h => ((hnodup.mem_erase_iff).mp h).1 rfl
          have hin : "__proto__" ∈ st.names := hp ▸ hn
          rw [if_neg hnot, if_pos hin]
          simp [Collection.set, hp]
        · have hne : ¬ "__proto__" = n.name := fun e => hp e.symm
          have hmem : "__proto__" ∈ st.names.erase n.name ↔ "__proto__" ∈ st.names := by
            rw [hnodup.mem_erase_iff]
            exact ⟨fun h => h.2, fun h => ⟨hne, h⟩⟩
          have hfind : List.find? (fun m => decide (m.name = "__proto__")) (n :: rest)
              = List.find? (fun m => decide (m.name = "__proto__")) rest :=
            List.find?_cons_of_neg _ (by simpa using hp)
          rw [hfind]
          have hset : (st.collection.set n.name n).proto = st.collection.proto := by
            simp [Collection.set, hp]
          rw [hset]
          by_cases hks : "__proto__" ∈ st.names
          · rw [if_pos (hmem.mpr hks), if_pos hks]
          · rw [if_neg (fun h => hks (hmem.mp h)), if_neg hks]
    · have hstep : pickCollect n st = st := by
        simp [pickCollect, JSSet.has, hn]
      rw [hstep]
      obtain ⟨ihn, ihc, ihp, ihq⟩ := ih st hnodup hfresh
      refine ⟨?_, fun k hkp => ?_, ihp, ?_⟩
      · rw [ihn]
        apply List.filter_congr
        intro k hk
        have hne : ¬ n.name = k := fun e => hn (e ▸ hk)
        simp [hne]
      · rw [ihc k hkp]
        by_cases hks : k ∈ st.names
        · have hne : ¬ n.name = k := fun e => hn (e ▸ hks)
          have hfind : List.find? (fun m => decide (m.name = k)) (n :: rest)
              = List.find? (fun m => decide (m.name = k)) rest :=
            List.find?_cons_of_neg _ (by simpa using hne)
          rw [hfind]
        · rw [if_neg hks, if_neg hks]
      · rw [ihq]
        by_cases hks : "__proto__" ∈ st.names
        · have hne : ¬ n.name = "__proto__" := fun e => hn (e ▸ hks)
          have hfind : List.find? (fun m => decide (m.name = "__proto__")) (n :: rest)
              = List.find? (fun m => decide (m.name = "__proto__")) rest :=
            List.find?_cons_of_neg _ (by simpa using hne)
          rw [hfind]
        · rw [if_neg hks, if_neg hks]

theorem foldl_add (values acc : List String) (hacc : acc.Nodup) :
    (values.foldl JSSet.add acc).Nodup
      ∧ (∀ k, k ∈ values.foldl JSSet.add acc ↔ k ∈ acc ∨ k ∈ values)
      ∧ ∀ p : String → Bool,
          (values.foldl JSSet.add acc).find? p = (acc ++ values).find? p := by
  induction values generalizing acc with
  | nil => simp [hacc]
  | cons v rest ih =>
    rw [List.foldl_cons]
    by_cases hv : v ∈ acc
    · have hadd : JSSet.add acc v = acc := by simp [JSSet.add, hv]
      rw [hadd]
      obtain ⟨h1, h2, h3⟩ := ih acc hacc
      refine ⟨h1, fun k => ?_, fun p => ?_⟩
      · rw [h2 k, List.mem_cons]
        constructor
        · rintro (h | h)
          · exact Or.inl h
          · exact Or.inr (Or.inr h)
        · rintro (h | h | h)
          · exact Or.inl h
          · exact Or.inl (h ▸ hv)
          · exact Or.inr h
      · rw [h3 p, List.find?_append, List.find?_append]
        cases hp : p v with
        | false => rw [List.find?_cons_of_neg _ (by simp [hp])]
        | true =>
          have hsome : (acc.find? p).isSome := by
            rw [List.find?_isSome]
            exact ⟨v, hv, hp⟩
          cases hf : acc.find? p with
          | none => rw [hf] at hsome; simp at hsome
          | some x => rfl
    · have hadd : JSSet.add acc v = acc ++ [v] := by simp [JSSet.add, hv]
      rw [hadd]
      have hnd : (acc ++ [v]).Nodup := by
        rw [List.nodup_append]
        refine ⟨hacc, List.nodup_singleton v, ?_⟩
        intro a ha hb
        rw [List.mem_singleton] at hb
        exact hv (hb ▸ ha)
      obtain ⟨h1, h2, h3⟩ := ih (acc ++ [v]) hnd
      refine ⟨h1, fun k => ?_, fun p => ?_⟩
      · rw [h2 k]
        simp only [List.mem_append, List.mem_singleton, List.mem_cons]
        tauto
      · rw [h3 p]
        simp

theorem head?_filter_eq_find? {β : Type} (p : β → Bool) (l : List β) :
    (l.filter p).head? = l.find? p := by
  induction l with
  | nil => rfl
  | cons a rest ih =>
    cases hp : p a with
    | true => simp [List.filter_cons, hp]
    | false => simp [List.filter_cons, hp, ih]

theorem mem_keys_iff_ownProperty {β : Type} (o : List (String × β)) (k : String) :
    k ∈ o.map Prod.fst ↔ (ownProperty o k).isSome := by
  induction o with
  | nil => simp [ownProperty]
  | cons p rest ih =>
    obtain ⟨a, b⟩ := p
    by_cases h : a = k
    · simp [ownProperty, h]
    · have h' : ¬ k = a := fun e => h e.symm
      simp [ownProperty, h, h', ih]

mutual
theorem sizeOf_le_of_mem_preorderNode : ∀ (node n : SceneNode),
    n ∈ preorderNode node → sizeOf n ≤ sizeOf node
  | .mk ref name children, n, h => by
    rw [preorderNode, List.mem_cons] at h
    rcases h with h | h
    · rw [h]
    · have := sizeOf_lt_of_mem_preorder children n h
      simp only [SceneNode.mk.sizeOf_spec]
      omega
theorem sizeOf_lt_of_mem_preorder : ∀ (nodes : List SceneNode) (n : SceneNode),
    n ∈ preorder nodes → sizeOf n < sizeOf nodes
  | [], n, h => by simp [preorder] at h
  | node :: rest, n, h => by
    rw [preorder, List.mem_append] at h
    simp only [List.cons.sizeOf_spec]
    rcases h with h | h
    · have := sizeOf_le_of_mem_preorderNode node n h
      omega
    · have := sizeOf_lt_of_mem_preorder rest n h
      omega
end

theorem ne_root_of_mem_descendants (root n : SceneNode) (h : n ∈ descendants root) :
    n ≠ root := by
  intro e
  subst e
  obtain ⟨ref, name, children⟩ := n
  have := sizeOf_lt_of_mem_preorder children _ h
  simp only [SceneNode.mk.sizeOf_spec] at this
  omega

theorem pickObjects_state (root : SceneNode) (namesIn : List String) :
    (pickForEach root.children
        { collection := { own := [], proto := none }, names := JSSet.ofList namesIn }).names
        = (JSSet.ofList namesIn).filter (fun k => !carried root k)
      ∧ (∀ k, k ≠ "__proto__" →
          ownProperty (pickObjects root namesIn).collection.own k
            = if k ∈ namesIn then (descendants root).find? (fun n => decide (n.name = k))
              else none)
      ∧ ownProperty (pickObjects root namesIn).collection.own "__proto__" = none
      ∧ (pickObjects root namesIn).collection.proto
          = if "__proto__" ∈ namesIn then
              (descendants root).find? (fun n => decide (n.name = "__proto__"))
            else none := by
  obtain ⟨hnd, hmem, _⟩ := foldl_add namesIn [] List.nodup_nil
  have h := foldl_pickCollect (preorder root.children)
    { collection := { own := [], proto := none }, names := JSSet.ofList namesIn } hnd
    (fun k _ => rfl)
  have hk : ∀ k, k ∈ JSSet.ofList namesIn ↔ k ∈ namesIn := by
    intro k
    unfold JSSet.ofList
    rw [hmem k]
    simp
  unfold pickObjects
  simp only
  rw [pickForEach_eq_foldl]
  refine ⟨h.1, fun k hkp => ?_, ?_, ?_⟩
  · rw [h.2.1 k hkp]
    by_cases hks : k ∈ namesIn
    · simp [ownProperty, hk, hks, descendants]
    · simp [ownProperty, hk, hks]
  · rw [h.2.2.1]
    rfl
  · rw [h.2.2.2]
    by_cases hks : "__proto__" ∈ namesIn
    · simp [hk, hks, descendants]
    · simp [hk, hks]

/-- What `pickObjects(root, ...names)` returns, for any names. Every requested
name other than `__proto__` that a strict descendant of `root` carries is an
own key of the collection, mapped to the first descendant of that name in
depth-first pre-order, and there are no other own keys. A requested `__proto__`
that is carried creates no own key: the first descendant of that name becomes
the prototype of the collection. The root is never collected. -/
theorem pickObjects_collects_first_descendants (root : SceneNode) (namesIn : List String) :
    (∀ k, k ≠ "__proto__" →
        ownProperty (pickObjects root namesIn).collection.own k
          = if k ∈ namesIn then (descendants root).find? (fun n => decide (n.name = k))
            else none)
      ∧ (∀ k, k ∈ (pickObjects root namesIn).collection.own.map Prod.fst
          ↔ k ≠ "__proto__" ∧ k ∈ namesIn ∧ ∃ n ∈ descendants root, n.name = k)
      ∧ (pickObjects root namesIn).collection.proto
          = (if "__proto__" ∈ namesIn then
              (descendants root).find? (fun n => decide (n.name = "__proto__"))
            else none)
      ∧ (∀ k n, ownProperty (pickObjects root namesIn).collection.own k = some n →
          n ∈ descendants root ∧ n.name = k ∧ n ≠ root)
      ∧ ∀ n, (pickObjects root namesIn).collection.proto = some n →
          n ∈ descendants root ∧ n.name = "__proto__" ∧ n ≠ root := by
  obtain ⟨_, hc, hp, hq⟩ := pickObjects_state root namesIn
  refine ⟨hc, fun k => ?_, hq, fun k n h => ?_, fun n h => ?_⟩
  · rw [mem_keys_iff_ownProperty]
    by_cases hkp : k = "__proto__"
    · subst hkp
      simp [hp]
    · rw [hc k hkp]
      by_cases hks : k ∈ namesIn
      · simp [hks, hkp, List.find?_isSome]
      · simp [hks]
  · by_cases hkp : k = "__proto__"
    · subst hkp
      rw [hp] at h
      exact absurd h (by simp)
    · rw [hc k hkp] at h
      by_cases hks : k ∈ namesIn
      · rw [if_pos hks] at h
        have hmem := List.mem_of_find?_eq_some h
        have hname := List.find?_some h
        exact ⟨hmem, by simpa using hname, ne_root_of_mem_descendants root n hmem⟩
      · rw [if_neg hks] at h
        exact absurd h (by simp)
  · rw [hq] at h
    by_cases hks : "__proto__" ∈ namesIn
    · rw [if_pos hks] at h
      have hmem := List.mem_of_find?_eq_some h
      have hname := List.find?_some h
      exact ⟨hmem, by simpa using hname, ne_root_of_mem_descendants root n hmem⟩
    · rw [if_neg hks] at h
      exact absurd h (by simp)

/-- C7, the failing input: `pickObjects(root, '__proto__', 'head')` on a scene
whose root has a child named `__proto__` and a child named `head`. Both names
are requested and carried, yet the returned collection has the single own key
`head`; the node named `__proto__` has become the collection's prototype, and
no warning is written because the name was struck off all the same. -/
theorem C7_requested_proto_name_is_no_key :
    carried sceneWithProtoName "__proto__" = true
      ∧ carried sceneWithProtoName "head" = true
      ∧ (pickObjects sceneWithProtoName ["__proto__", "head"]).collection.own.map Prod.fst
          = ["head"]
      ∧ ownProperty (pickObjects sceneWithProtoName ["__proto__", "head"]).collection.own
          "__proto__" = none
      ∧ ((pickObjects sceneWithProtoName ["__proto__", "head"]).collection.proto.map
          SceneNode.name) = some "__proto__"
      ∧ (pickObjects sceneWithProtoName ["__proto__", "head"]).warnings = [] := by
  exact ⟨by decide, by decide, by decide, rfl, by decide, by decide⟩

/-- C8: `pickObjects` writes a warning exactly when some requested name is
carried by no strict descendant of `root`; it writes at most one, naming the
first such name in argument order, and the collection it returns still holds
every requested name that is carried: as an own key, or for `__proto__` as
its prototype. -/
theorem C8_pickObjects_warns_about_first_missing (root : SceneNode) (namesIn : List String) :
    (pickObjects root namesIn).warnings
        = (match namesIn.find? (fun k => !carried root k) with
          | some k => ["Not all objects found: " ++ k ++ " missing"]
          | none => [])
      ∧ ((pickObjects root namesIn).warnings ≠ []
          ↔ ∃ k ∈ namesIn, carried root k = false)
      ∧ (pickObjects root namesIn).warnings.length ≤ 1
      ∧ (∀ k ∈ namesIn, k ≠ "__proto__" → carried root k = true →
          (ownProperty (pickObjects root namesIn).collection.own k).isSome)
      ∧ ("__proto__" ∈ namesIn → carried root "__proto__" = true →
          (pickObjects root namesIn).collection.proto.isSome) := by
  obtain ⟨_, _, hfind⟩ := foldl_add namesIn [] List.nodup_nil
  obtain ⟨hn, hc, _, hq⟩ := pickObjects_state root namesIn
  have hhead : (pickForEach root.children
      { collection := { own := [], proto := none }, names := JSSet.ofList namesIn }).names.head?
        = namesIn.find? (fun k => !carried root k) := by
    rw [hn, head?_filter_eq_find?]
    unfold JSSet.ofList
    rw [hfind]
    rfl
  have hw : (pickObjects root namesIn).warnings
      = (match namesIn.find? (fun k => !carried root k) with
        | some k => ["Not all objects found: " ++ k ++ " missing"]
        | none => []) := by
    rw [← hhead]
    unfold pickObjects
    simp only
    cases (pickForEach root.children
      { collection := { own := [], proto := none }, names := JSSet.ofList namesIn }).names <;> rfl
  refine ⟨hw, ?_, ?_, ?_, ?_⟩
  · rw [hw]
    cases hf : namesIn.find? (fun k => !carried root k) with
    | none =>
      simp only [ne_eq, not_true_eq_false, false_iff, not_exists, not_and]
      intro k hk
      have := List.find?_eq_none.mp hf k hk
      simpa using this
    | some k =>
      simp only [ne_eq, List.cons_ne_nil, not_false_eq_true, true_iff]
      have hmem := List.mem_of_find?_eq_some hf
      have hp := List.find?_some hf
      exact ⟨k, hmem, by simpa using hp⟩
  · rw [hw]
    cases namesIn.find? (fun k => !carried root k) <;> simp
  · intro k hk hkp hcar
    rw [hc k hkp, if_pos hk, List.find?_isSome]
    simpa [carried] using hcar
  · intro hk hcar
    rw [hq, if_pos hk, List.find?_isSome]
    simpa [carried] using hcar

/-! ## The examples of the specification -/

/-- The sync example: `updateObjects([{id: 'a', position: (1, 2, 3)}])`, then
`connectPhysicsToThree(nodeA, {id: 'a'})`, then one frame. -/
theorem example_sync_copies_position :
    ((((freshThree.updateObjects
        [{ id := "a", position := some ⟨1, 2, 3⟩, quaternion := none }]).connectPhysicsToThree 7
          ⟨"a", by decide⟩).animate idleThree).state.world.nodes 7).position = ⟨1, 2, 3⟩ := by
  decide

/-- The search example with both names present: both are collected, the first
`head` in pre-order wins, and nothing is written to the log. -/
theorem example_pickObjects_all_found :
    (pickObjects figure ["head", "left_hand"]).collection.own
        = [("head", .mk 1 "head" []), ("left_hand", .mk 4 "left_hand" [])]
      ∧ (pickObjects figure ["head", "left_hand"]).warnings = [] := by
  exact ⟨rfl, rfl⟩

/-- The search example with `left_hand` absent: the partial collection is
returned and one warning names `left_hand`. -/
theorem example_pickObjects_one_missing :
    (pickObjects figureWithoutHand ["head", "left_hand"]).collection.own
        = [("head", .mk 1 "head" [])]
      ∧ (pickObjects figureWithoutHand ["head", "left_hand"]).warnings
        = ["Not all objects found: left_hand missing"] := by
  exact ⟨rfl, by decide⟩

/-- The ground-query example: with no object listed the promise is rejected. -/
theorem example_ground_query_without_objects :
    freshThree.getCameraPositionAbove idleThree ⟨0, 10, 0⟩ []
      = .rejected "No Hit Below Postion" := by
  rfl

end Verlet
